import Mathlib

/-!
Verification of the statsd_exporter UDP relay (`pkg/relay/relay.go`) and the
main-package configuration helpers (`reloadConfig`, `getCache`).

Modelling conventions:
* Go byte strings are `List Nat` (one entry per byte; `'\n'` is byte 10).
* Go `uint` is a 64-bit machine word; arithmetic that can wrap is made
  explicit via `uintW` and `uintSub`.
* Prometheus counters are `Nat` fields of an explicit state record; the
  channel `bufferChannel` is the FIFO list of byte strings enqueued so far.
* The flush goroutine `relayOutput` is a step function over the two events
  it selects on (ticker fire, line arrival), with a boolean oracle for
  whether the UDP write errors; a run folds the step over an event list and
  stops when a send errors, exactly as the Go loop `return`s.
* Logging is I/O and is not part of the state; the `errored` flag of a step
  corresponds one-to-one with the `logger.Error` call before `return`.
-/

namespace StatsdExporter

set_option maxRecDepth 4000

/-- Size of the Go `uint` value space on a 64-bit platform. -/
def uintW : Nat := 2 ^ 64

/-- Go unsigned subtraction `a - b` on `uint`: wraps modulo `2^64`. -/
def uintSub (a b : Nat) : Nat := (a % uintW + (uintW - b % uintW)) % uintW

/-- The byte value of the line feed character `'\n'`. -/
def newlineByte : Nat := 10

/-- `strings.HasSuffix l "\n")`: the byte string ends in a line feed. -/
def hasNewlineSuffix (l : List Nat) : Bool := l.getLast? == some newlineByte

/-- The `if !strings.HasSuffix(l, "\n") { l = l + "\n" }` step of `RelayLine`. -/
def ensureNewline (l : List Nat) : List Nat :=
  if hasNewlineSuffix l then l else l ++ [newlineByte]

/-- State of a `Relay` as seen by `RelayLine` (`pkg/relay/relay.go`):
the configured maximum packet length, the three counters, and the FIFO
contents of `bufferChannel` (each element one enqueued byte string). -/
structure RelayState where
  packetLength : Nat
  longLinesTotal : Nat
  relayedLinesTotal : Nat
  packetsTotal : Nat
  bufferChannel : List (List Nat)
deriving DecidableEq, Repr

/-- `Relay.RelayLine` (`pkg/relay/relay.go` lines 148-165): drop empty
lines; count and drop lines longer than `packetLength - 1` (Go `uint`
subtraction); otherwise append a trailing newline if absent, count the line
as relayed, and enqueue it on `bufferChannel`. -/
def RelayLine (r : RelayState) (l : List Nat) : RelayState :=
  let lineLength := l.length
  if lineLength = 0 then
    r
  else if lineLength > uintSub r.packetLength 1 then
    { r with longLinesTotal := r.longLinesTotal + 1 }
  else
    let l2 := ensureNewline l
    { r with
        relayedLinesTotal := r.relayedLinesTotal + 1,
        bufferChannel := r.bufferChannel ++ [l2] }

/-- State owned by the `relayOutput` goroutine: the configured maximum
packet length, the `bytes.Buffer` contents, and the packets counter. -/
structure FlushState where
  packetLength : Nat
  buffer : List Nat
  packetsTotal : Nat
deriving DecidableEq, Repr

/-- Result of `Relay.sendPacket` (`pkg/relay/relay.go` lines 136-145):
the updated packets counter, the datagrams actually written to the UDP
connection, and whether the write returned an error.  An empty buffer is
skipped before any write, so it can neither be written nor error. -/
structure SendResult where
  packetsTotal : Nat
  written : List (List Nat)
  err : Bool
deriving DecidableEq, Repr

/-- `Relay.sendPacket`: empty buffers are not sent; otherwise the buffer is
written as one datagram, the packets counter is incremented, and the write
may error (`netErr` models the result of `conn.WriteToUDP`). -/
def sendPacket (packetsTotal : Nat) (buf : List Nat) (netErr : Bool) : SendResult :=
  if buf.length = 0 then
    ⟨packetsTotal, [], false⟩
  else
    ⟨packetsTotal + 1, [buf], netErr⟩

/-- The two events the `relayOutput` select loop reacts to: a fire of the
one-second ticker, or a byte string arriving on `bufferChannel`. -/
inductive RelayEvent where
  | tick
  | line (b : List Nat)
deriving DecidableEq, Repr

/-- Outcome of one iteration of the `relayOutput` select loop: the new
goroutine state, the datagrams written during the iteration, whether
`sendPacket` was invoked, and whether it returned an error (in which case
the Go loop logs and `return`s). -/
structure StepResult where
  state : FlushState
  sent : List (List Nat)
  flushed : Bool
  errored : Bool
deriving DecidableEq, Repr

/-- One iteration of `relayOutput` (`pkg/relay/relay.go` lines 106-132).
On a tick the buffer is sent and, if the send succeeded, reset.  On a line
`b`, if `len(b) + buffer.Len() > packetLength` the buffer is sent and, if
the send succeeded, reset and re-seeded with `b`; otherwise `b` is appended
to the buffer. -/
def relayOutputStep (s : FlushState) (ev : RelayEvent) (netErr : Bool) : StepResult :=
  match ev with
  | .tick =>
      let sr := sendPacket s.packetsTotal s.buffer netErr
      if sr.err then
        ⟨{ s with packetsTotal := sr.packetsTotal }, sr.written, true, true⟩
      else
        ⟨{ s with packetsTotal := sr.packetsTotal, buffer := [] }, sr.written, true, false⟩
  | .line b =>
      if b.length + s.buffer.length > s.packetLength then
        let sr := sendPacket s.packetsTotal s.buffer netErr
        if sr.err then
          ⟨{ s with packetsTotal := sr.packetsTotal }, sr.written, true, true⟩
        else
          ⟨{ s with packetsTotal := sr.packetsTotal, buffer := b }, sr.written, true, false⟩
      else
        ⟨{ s with buffer := s.buffer ++ b }, [], false, false⟩

/-- Outcome of running the `relayOutput` loop over a list of events: final
state, all datagrams written in order, and whether the loop terminated
because a send errored. -/
structure RunResult where
  state : FlushState
  sent : List (List Nat)
  terminated : Bool
deriving DecidableEq, Repr

/-- The `relayOutput` loop folded over a list of `(event, write-error)`
pairs.  A send error makes the loop `return`: the remaining events are not
consumed and nothing further is sent. -/
def relayOutputRun (s : FlushState) : List (RelayEvent × Bool) → RunResult
  | [] => ⟨s, [], false⟩
  | (ev, netErr) :: rest =>
      let r := relayOutputStep s ev netErr
      if r.errored then
        ⟨r.state, r.sent, true⟩
      else
        let rr := relayOutputRun r.state rest
        ⟨rr.state, r.sent ++ rr.sent, rr.terminated⟩

/-- Boolean admission bound used to state the relay invariant: a line event
carries at most `pl` bytes; ticks are unconstrained. -/
def lineFits (pl : Nat) : RelayEvent × Bool → Bool
  | (.line b, _) => decide (b.length ≤ pl)
  | (.tick, _) => true

/-- A sample relay state with the default 1400-byte maximum packet length. -/
def sampleRelay : RelayState :=
  { packetLength := 1400, longLinesTotal := 0, relayedLinesTotal := 0,
    packetsTotal := 0, bufferChannel := [] }

/-- A sample relay state with a 4-byte maximum packet length. -/
def smallRelay : RelayState :=
  { packetLength := 4, longLinesTotal := 0, relayedLinesTotal := 0,
    packetsTotal := 0, bufferChannel := [] }

/-- A sample relay state with maximum packet length 0. -/
def zeroRelay : RelayState :=
  { packetLength := 0, longLinesTotal := 0, relayedLinesTotal := 0,
    packetsTotal := 0, bufferChannel := [] }

/-- A sample flush-goroutine state with one byte buffered. -/
def sampleFlush : FlushState :=
  { packetLength := 4, buffer := [97], packetsTotal := 0 }

/-- The flush-goroutine state at the start of `relayOutput`: empty buffer. -/
def emptyFlush : FlushState :=
  { packetLength := 4, buffer := [], packetsTotal := 0 }

/-- A sample error-free event sequence: two admitted lines and a tick. -/
def demoEvents : List (RelayEvent × Bool) :=
  [(.line [97, 10], false), (.line [98, 98, 98, 10], false), (.tick, false)]

/-- Counters of the main package (`src/unnamed/part_000`, the `promauto`
metrics at lines 49-174).  Gauges (`loaded_mappings`, `metrics_total`) are
owned by the mapper and exporter and are not part of this record; counter
vectors are modelled by their total count, except `config_reloads_total`
whose two outcome label values used by the code are separate fields. -/
structure MainMetrics where
  eventStats : Nat
  eventsFlushed : Nat
  eventsUnmapped : Nat
  udpPackets : Nat
  udpPacketDrops : Nat
  tcpConnections : Nat
  tcpErrors : Nat
  tcpLineTooLong : Nat
  unixgramPackets : Nat
  linesReceived : Nat
  samplesReceived : Nat
  sampleErrors : Nat
  tagsReceived : Nat
  tagErrors : Nat
  configLoadsSuccess : Nat
  configLoadsFailure : Nat
  conflictingEventStats : Nat
  errorEventStats : Nat
  eventsActions : Nat
deriving DecidableEq, Repr

/-- `reloadConfig` (`src/unnamed/part_000` lines 197-206).  The call
`mapper.InitFromFile(fileName)` lives in the mapper package (not a source
file here); only its error result matters to `reloadConfig`, so it is the
boolean parameter `initErr`.  Returns the updated counters together with
the message logged. -/
def reloadConfig (initErr : Bool) (m : MainMetrics) : MainMetrics × String :=
  if initErr then
    ({ m with configLoadsFailure := m.configLoadsFailure + 1 },
      "Error reloading config")
  else
    ({ m with configLoadsSuccess := m.configLoadsSuccess + 1 },
      "Config reloaded successfully")

/-- Modelled from the spec: the bounded mapping caches built by the
`mappercache/lru` and `mappercache/randomreplacement` packages, which are
not among the source files.  Per the spec, the cache "Policy is either LRU
(eviction of least-recently-touched entry) or uniform-random replacement
when capacity is reached", so a cache is its policy plus its bound. -/
inductive MetricMapperCache where
  | lru (size : Int)
  | randomReplacement (size : Int)
deriving DecidableEq, Repr

/-- Modelled from the spec: `lru.NewMetricMapperLRUCache` (not among the
source files) yields a bounded LRU cache of the requested size. -/
def NewMetricMapperLRUCache (size : Int) : Except String MetricMapperCache :=
  .ok (.lru size)

/-- Modelled from the spec: `randomreplacement.NewMetricMapperRRCache`
(not among the source files) yields a bounded random-replacement cache of
the requested size. -/
def NewMetricMapperRRCache (size : Int) : Except String MetricMapperCache :=
  .ok (.randomReplacement size)

/-- `getCache` (`src/unnamed/part_000` lines 222-243): size 0 disables
caching with no error regardless of type; otherwise the type selects the
LRU or random-replacement constructor, and any other type is an error. -/
def getCache (cacheSize : Int) (cacheType : String) :
    Except String (Option MetricMapperCache) :=
  if cacheSize = 0 then
    .ok none
  else
    match cacheType with
    | "lru" =>
        match NewMetricMapperLRUCache cacheSize with
        | .ok c => .ok (some c)
        | .error e => .error e
    | "random" =>
        match NewMetricMapperRRCache cacheSize with
        | .ok c => .ok (some c)
        | .error e => .error e
    | t => .error ("unsupported cache type \"" ++ t ++ "\"")

theorem uintSub_one (a : Nat) (h1 : 1 ≤ a) (h2 : a < uintW) : uintSub a 1 = a - 1 := by
  have hW1 : (1 : Nat) < uintW := by
    simp [uintW]
  have hWpos : 1 ≤ uintW := le_of_lt hW1
  unfold uintSub
  rw [Nat.mod_eq_of_lt h2, Nat.mod_eq_of_lt hW1]
  have hsplit : a + (uintW - 1) = (a - 1) + uintW := by omega
  rw [hsplit, Nat.add_mod_right, Nat.mod_eq_of_lt (by omega)]

/-- C10: calling `RelayLine` with the empty string leaves the relay state
unchanged: no counter moves and nothing is enqueued. -/
theorem relayLine_empty_noop (r : RelayState) : RelayLine r [] = r := rfl

/-- C2: for a maximum packet length of at least 1 (and within the `uint`
range), a non-empty line longer than `packetLength - 1` is dropped with the
long-lines counter incremented exactly once and nothing else changed, while
a line of length at most `packetLength - 1` is enqueued (with its newline
ensured), counted as relayed, and not counted as long. -/
theorem relayLine_long_line_policy (r : RelayState) (l : List Nat)
    (h1 : 1 ≤ r.packetLength) (h2 : r.packetLength < uintW) (hl : l ≠ []) :
    (l.length > r.packetLength - 1 →
      RelayLine r l = { r with longLinesTotal := r.longLinesTotal + 1 }) ∧
    (l.length ≤ r.packetLength - 1 →
      RelayLine r l = { r with
        relayedLinesTotal := r.relayedLinesTotal + 1,
        bufferChannel := r.bufferChannel ++ [ensureNewline l] }) := by
  have hne : ¬ l.length = 0 := by simpa using hl
  have hsub : uintSub r.packetLength 1 = r.packetLength - 1 :=
    uintSub_one r.packetLength h1 h2
  constructor
  · intro hgt
    simp [RelayLine, hne, hsub, hgt]
  · intro hle
    simp [RelayLine, hne, hsub, Nat.not_lt.mpr hle]

/-- Witness for C2 at packet length 4: a 4-byte line exceeds
`packetLength - 1 = 3` and is counted as long and dropped; a 3-byte line is
enqueued and counted as relayed. -/
theorem relayLine_long_line_policy_witness :
    RelayLine smallRelay [97, 97, 97, 97]
      = { smallRelay with longLinesTotal := smallRelay.longLinesTotal + 1 } ∧
    RelayLine smallRelay [97, 97, 97]
      = { smallRelay with
            relayedLinesTotal := smallRelay.relayedLinesTotal + 1,
            bufferChannel := smallRelay.bufferChannel
              ++ [ensureNewline [97, 97, 97]] } :=
  ⟨(relayLine_long_line_policy smallRelay [97, 97, 97, 97]
      (by decide) (by decide) (by decide)).1 (by decide),
   (relayLine_long_line_policy smallRelay [97, 97, 97]
      (by decide) (by decide) (by decide)).2 (by decide)⟩

/-- C3: an accepted line (non-empty and not over-long) is enqueued as
exactly one byte string: the line itself when it already ends in `'\n'`,
the line followed by exactly one `'\n'` otherwise; either way the enqueued
string ends in `'\n'`. -/
theorem relayLine_enqueues_newline_terminated (r : RelayState) (l : List Nat)
    (hl : l ≠ []) (hlen : ¬ l.length > uintSub r.packetLength 1) :
    (RelayLine r l).bufferChannel = r.bufferChannel ++ [ensureNewline l] ∧
    (l.getLast? = some newlineByte → ensureNewline l = l) ∧
    (l.getLast? ≠ some newlineByte → ensureNewline l = l ++ [newlineByte]) ∧
    (ensureNewline l).getLast? = some newlineByte := by
  have hne : ¬ l.length = 0 := by simpa using hl
  refine ⟨by simp [RelayLine, hne, hlen], ?_, ?_, ?_⟩
  · intro h
    simp [ensureNewline, hasNewlineSuffix, h]
  · intro h
    simp [ensureNewline, hasNewlineSuffix, h]
  · by_cases h : l.getLast? = some newlineByte
    · simp [ensureNewline, hasNewlineSuffix, h]
    · simp [ensureNewline, hasNewlineSuffix, h]

/-- Witness for C3: with the default 1400-byte maximum, the line `"ab"`
(no trailing newline) is enqueued as `"ab\n"`, and the enqueued string ends
in `'\n'`. -/
theorem relayLine_enqueues_newline_terminated_witness :
    (RelayLine sampleRelay [97, 98]).bufferChannel
      = sampleRelay.bufferChannel ++ [ensureNewline [97, 98]] ∧
    ensureNewline [97, 98] = [97, 98] ++ [newlineByte] ∧
    (ensureNewline [97, 98]).getLast? = some newlineByte :=
  have h := relayLine_enqueues_newline_terminated sampleRelay [97, 98]
    (by decide) (by decide)
  ⟨h.1, h.2.2.1 (by decide), h.2.2.2⟩

/-- C4 counterexample: the relay does modify accepted inbound lines.  The
one-byte line `"a"` (no trailing newline), accepted at the default packet
length, is enqueued toward the downstream collector as the two bytes
`"a\n"`, which differ from the inbound bytes. -/
theorem relayLine_modifies_line_cex :
    (RelayLine sampleRelay [97]).bufferChannel = [[97, newlineByte]] ∧
    ([97, newlineByte] : List Nat) ≠ [97] := by
  constructor
  · decide
  · decide

/-- C4 amended: for every accepted inbound line, the bytes enqueued toward
the downstream collector are exactly the inbound bytes when the line
already ends in `'\n'`, and the inbound bytes followed by one appended
`'\n'` otherwise; no other modification occurs. -/
theorem relayLine_relays_bytes_up_to_newline (r : RelayState) (l : List Nat)
    (hl : l ≠ []) (hlen : ¬ l.length > uintSub r.packetLength 1) :
    (RelayLine r l).bufferChannel = r.bufferChannel ++ [ensureNewline l] ∧
    (ensureNewline l = l ∨ ensureNewline l = l ++ [newlineByte]) := by
  have hne : ¬ l.length = 0 := by simpa using hl
  refine ⟨by simp [RelayLine, hne, hlen], ?_⟩
  by_cases h : hasNewlineSuffix l
  · exact Or.inl (by simp [ensureNewline, h])
  · exact Or.inr (by simp [ensureNewline, h])

/-- Witness for the amended C4: the accepted line `"a\n"` is enqueued
byte-for-byte unchanged. -/
theorem relayLine_relays_bytes_up_to_newline_witness :
    (RelayLine sampleRelay [97, newlineByte]).bufferChannel
      = sampleRelay.bufferChannel ++ [ensureNewline [97, newlineByte]] ∧
    (ensureNewline [97, newlineByte] = [97, newlineByte] ∨
      ensureNewline [97, newlineByte] = [97, newlineByte] ++ [newlineByte]) :=
  relayLine_relays_bytes_up_to_newline sampleRelay [97, newlineByte]
    (by decide) (by decide)

/-- C9: with maximum packet length 0, the `uint` subtraction
`packetLength - 1` wraps to the maximum `uint` value, so no non-empty line
is ever rejected as too long: the long-lines counter never moves and every
non-empty line is enqueued. -/
theorem relayLine_zero_packet_length_wraps (r : RelayState) (l : List Nat)
    (hp : r.packetLength = 0) (hl : l ≠ []) (hlen : l.length < uintW) :
    uintSub 0 1 = uintW - 1 ∧
    (RelayLine r l).longLinesTotal = r.longLinesTotal ∧
    (RelayLine r l).bufferChannel = r.bufferChannel ++ [ensureNewline l] := by
  have hwrap : uintSub 0 1 = uintW - 1 := by
    unfold uintSub
    rw [Nat.zero_mod, Nat.mod_eq_of_lt (by simp [uintW]), Nat.zero_add,
      Nat.mod_eq_of_lt (by simp [uintW])]
  have hne : ¬ l.length = 0 := by simpa using hl
  have hnot : ¬ l.length > uintSub r.packetLength 1 := by
    rw [hp, hwrap]
    omega
  exact ⟨hwrap, by simp [RelayLine, hne, hnot], by simp [RelayLine, hne, hnot]⟩

/-- Witness for C9: with packet length 0, a 64-byte line (far above packet
length 0) is relayed rather than counted as long. -/
theorem relayLine_zero_packet_length_wraps_witness :
    uintSub 0 1 = uintW - 1 ∧
    (RelayLine zeroRelay (List.replicate 64 97)).longLinesTotal
      = zeroRelay.longLinesTotal ∧
    (RelayLine zeroRelay (List.replicate 64 97)).bufferChannel
      = zeroRelay.bufferChannel ++ [ensureNewline (List.replicate 64 97)] :=
  relayLine_zero_packet_length_wraps zeroRelay (List.replicate 64 97)
    (by decide) (by decide) (by decide)

theorem relayOutputStep_tick_eq (s : FlushState) (ne : Bool) :
    relayOutputStep s .tick ne =
      if s.buffer.length = 0 then
        ⟨{ s with buffer := [] }, [], true, false⟩
      else if ne then
        ⟨{ s with packetsTotal := s.packetsTotal + 1 }, [s.buffer], true, true⟩
      else
        ⟨{ s with packetsTotal := s.packetsTotal + 1, buffer := [] },
          [s.buffer], true, false⟩ := by
  by_cases hb : s.buffer.length = 0
  · simp [relayOutputStep, sendPacket, hb]
  · cases ne <;> simp [relayOutputStep, sendPacket, hb]

theorem relayOutputStep_line_eq (s : FlushState) (b : List Nat) (ne : Bool) :
    relayOutputStep s (.line b) ne =
      if b.length + s.buffer.length > s.packetLength then
        (if s.buffer.length = 0 then
          ⟨{ s with buffer := b }, [], true, false⟩
        else if ne then
          ⟨{ s with packetsTotal := s.packetsTotal + 1 }, [s.buffer], true, true⟩
        else
          ⟨{ s with packetsTotal := s.packetsTotal + 1, buffer := b },
            [s.buffer], true, false⟩)
      else
        ⟨{ s with buffer := s.buffer ++ b }, [], false, false⟩ := by
  by_cases hb : s.buffer.length = 0
  · by_cases hc : b.length + s.buffer.length > s.packetLength
    · have hc2 : s.packetLength < b.length := by omega
      simp [relayOutputStep, sendPacket, hb, hc2]
    · have hc2 : ¬ s.packetLength < b.length := by omega
      simp [relayOutputStep, sendPacket, hb, hc2]
  · by_cases hc : b.length + s.buffer.length > s.packetLength
    · cases ne <;> simp [relayOutputStep, sendPacket, hb, hc]
    · simp [relayOutputStep, sendPacket, hb, hc]

/-- C1: in an error-free iteration of the `relayOutput` loop, a received
line triggers a send of the current buffer exactly when appending it would
make the buffer exceed the maximum packet length, after which the buffer is
re-seeded with that line; otherwise the line is appended and nothing is
sent.  Independently, a tick always triggers a send of the buffer and then
clears it.  In every send the buffer goes out as a single datagram (none
when the buffer is empty, since `sendPacket` skips empty buffers). -/
theorem relayOutput_flush_policy (s : FlushState) (b : List Nat) :
    ((relayOutputStep s (.line b) false).flushed
        = decide (b.length + s.buffer.length > s.packetLength)) ∧
    (if b.length + s.buffer.length > s.packetLength then
        (relayOutputStep s (.line b) false).state.buffer = b ∧
        (relayOutputStep s (.line b) false).sent
          = (if s.buffer.length = 0 then [] else [s.buffer])
      else
        (relayOutputStep s (.line b) false).state.buffer = s.buffer ++ b ∧
        (relayOutputStep s (.line b) false).sent = []) ∧
    (relayOutputStep s .tick false).flushed = true ∧
    (relayOutputStep s .tick false).state.buffer = [] ∧
    (relayOutputStep s .tick false).sent
      = (if s.buffer.length = 0 then [] else [s.buffer]) := by
  rw [relayOutputStep_line_eq, relayOutputStep_tick_eq]
  by_cases hc : b.length + s.buffer.length > s.packetLength
  · simp only [if_pos hc, decide_eq_true hc]
    by_cases hb : s.buffer.length = 0 <;> simp [hb]
  · simp only [if_neg hc, decide_eq_false hc]
    by_cases hb : s.buffer.length = 0 <;> simp [hb]

/-- C5: whenever a send performed by the `relayOutput` loop returns an
error, the loop terminates right there (after logging, which the `errored`
flag stands for): the remaining events are never consumed and no further
datagram is sent.  This covers both the tick-triggered and the
capacity-triggered send, since `ev` is arbitrary. -/
theorem relayOutput_send_error_terminates (s : FlushState) (ev : RelayEvent)
    (netErr : Bool) (rest : List (RelayEvent × Bool))
    (herr : (relayOutputStep s ev netErr).errored = true) :
    relayOutputRun s ((ev, netErr) :: rest)
      = ⟨(relayOutputStep s ev netErr).state,
         (relayOutputStep s ev netErr).sent, true⟩ := by
  simp [relayOutputRun, herr]

/-- Witness for C5: a failing tick-time send of the one-byte buffer stops
the run; the subsequent event is ignored. -/
theorem relayOutput_send_error_terminates_witness :
    relayOutputRun sampleFlush [(RelayEvent.tick, true), (RelayEvent.tick, false)]
      = ⟨(relayOutputStep sampleFlush RelayEvent.tick true).state,
         (relayOutputStep sampleFlush RelayEvent.tick true).sent, true⟩ :=
  relayOutput_send_error_terminates sampleFlush RelayEvent.tick true
    [(RelayEvent.tick, false)] (by decide)

theorem relayOutputStep_bounds (s : FlushState) (ev : RelayEvent) (ne : Bool)
    (hbuf : s.buffer.length ≤ s.packetLength)
    (hev : ∀ b, ev = RelayEvent.line b → b.length ≤ s.packetLength) :
    (relayOutputStep s ev ne).state.packetLength = s.packetLength ∧
    (relayOutputStep s ev ne).state.buffer.length ≤ s.packetLength ∧
    ∀ p ∈ (relayOutputStep s ev ne).sent,
      0 < p.length ∧ p.length ≤ s.packetLength := by
  cases ev with
  | tick =>
      rw [relayOutputStep_tick_eq]
      by_cases hb : s.buffer.length = 0
      · simp [hb]
      · cases ne <;> simp [hb] <;> omega
  | line b =>
      have hbl : b.length ≤ s.packetLength := hev b rfl
      rw [relayOutputStep_line_eq]
      by_cases hc : b.length + s.buffer.length > s.packetLength
      · by_cases hb : s.buffer.length = 0
        · exact absurd hbl (by omega)
        · cases ne <;> simp [hc, hb, hbl] <;> omega
      · simp [hc]
        omega

theorem relayOutputRun_bounds (events : List (RelayEvent × Bool)) :
    ∀ s : FlushState, s.buffer.length ≤ s.packetLength →
      (∀ pe ∈ events, lineFits s.packetLength pe = true) →
      ∀ p ∈ (relayOutputRun s events).sent,
        0 < p.length ∧ p.length ≤ s.packetLength := by
  induction events with
  | nil =>
      intro s _ _ p hp
      simp [relayOutputRun] at hp
  | cons pe rest ih =>
      intro s hbuf hfits p hp
      obtain ⟨ev, ne⟩ := pe
      have hev : ∀ b, ev = RelayEvent.line b → b.length ≤ s.packetLength := by
        intro b hb
        have hf := hfits (ev, ne) (by simp)
        rw [hb] at hf
        simpa [lineFits] using hf
      have hstep := relayOutputStep_bounds s ev ne hbuf hev
      simp only [relayOutputRun] at hp
      split at hp
      · exact hstep.2.2 p hp
      · rcases List.mem_append.mp hp with h | h
        · exact hstep.2.2 p h
        · have hrec := ih (relayOutputStep s ev ne).state
            (by rw [hstep.1]; exact hstep.2.1)
            (by intro q hq; rw [hstep.1]; exact hfits q (List.mem_cons_of_mem _ hq))
            p h
          rw [hstep.1] at hrec
          exact hrec

/-- C8: if the maximum packet length is at least 1, the buffer starts
within bound, and every line event obeys the admission bound (at most the
maximum packet length after the newline append), then every datagram the
`relayOutput` loop actually writes is non-empty and at most the maximum
packet length long; and `sendPacket` never writes an empty datagram at
all. -/
theorem relayOutput_datagram_bounds (s : FlushState)
    (events : List (RelayEvent × Bool))
    (_hpl : 1 ≤ s.packetLength)
    (hbuf : s.buffer.length ≤ s.packetLength)
    (hfits : ∀ pe ∈ events, lineFits s.packetLength pe = true) :
    (∀ p ∈ (relayOutputRun s events).sent,
        0 < p.length ∧ p.length ≤ s.packetLength) ∧
    ∀ (pt : Nat) (buf : List Nat) (ne : Bool) (p : List Nat),
      p ∈ (sendPacket pt buf ne).written → 0 < p.length := by
  refine ⟨relayOutputRun_bounds events s hbuf hfits, ?_⟩
  intro pt buf ne p hp
  by_cases hb : buf.length = 0
  · simp [sendPacket, hb] at hp
  · simp [sendPacket, hb] at hp
    subst hp
    omega

/-- Witness for C8: running the loop from an empty 4-byte-limit buffer over
two admitted lines and a tick writes the datagram `"a\n"`, which is
non-empty and within the limit. -/
theorem relayOutput_datagram_bounds_witness :
    0 < ([97, 10] : List Nat).length ∧
    ([97, 10] : List Nat).length ≤ emptyFlush.packetLength :=
  (relayOutput_datagram_bounds emptyFlush demoEvents
      (by decide) (by decide) (by decide)).1 [97, 10] (by decide)

/-- C6: `reloadConfig` bumps the config-reloads counter exactly once, with
outcome `failure` exactly when loading the mapping file errored and
`success` otherwise, logs the corresponding message, and touches no other
counter of the main package (the full record equality pins every other
field). -/
theorem reloadConfig_counts_once (m : MainMetrics) (initErr : Bool) :
    (reloadConfig initErr m).1
      = (if initErr then { m with configLoadsFailure := m.configLoadsFailure + 1 }
         else { m with configLoadsSuccess := m.configLoadsSuccess + 1 }) ∧
    (reloadConfig initErr m).1.configLoadsFailure
        + (reloadConfig initErr m).1.configLoadsSuccess
      = m.configLoadsFailure + m.configLoadsSuccess + 1 ∧
    ((reloadConfig initErr m).1.configLoadsFailure = m.configLoadsFailure + 1
      ↔ initErr = true) ∧
    (reloadConfig initErr m).2
      = (if initErr then "Error reloading config" else "Config reloaded successfully") := by
  cases initErr <;> simp [reloadConfig] <;> omega

/-- C7: `getCache` yields an LRU cache for type `"lru"` and a
random-replacement cache for type `"random"`; for size 0 it yields no
cache and no error whatever the type; any other type with non-zero size is
an error with no cache. -/
theorem getCache_policy (cacheSize : Int) (cacheType : String)
    (hs : cacheSize ≠ 0) :
    getCache cacheSize "lru" = .ok (some (.lru cacheSize)) ∧
    getCache cacheSize "random" = .ok (some (.randomReplacement cacheSize)) ∧
    (cacheType ≠ "lru" → cacheType ≠ "random" →
      getCache cacheSize cacheType
        = .error ("unsupported cache type \"" ++ cacheType ++ "\"")) ∧
    ∀ t : String, getCache 0 t = .ok none := by
  refine ⟨?_, ?_, ?_, fun t => rfl⟩
  · simp [getCache, NewMetricMapperLRUCache, hs]
  · simp [getCache, NewMetricMapperRRCache, hs]
  · intro h1 h2
    simp only [getCache, if_neg hs]

/-- Witness for C7 at size 1000 (the default) and the bogus type
`"fifo"`. -/
theorem getCache_policy_witness :
    getCache 1000 "lru" = .ok (some (.lru 1000)) ∧
    getCache 1000 "random" = .ok (some (.randomReplacement 1000)) ∧
    getCache 1000 "fifo" = .error ("unsupported cache type \"fifo\"") ∧
    getCache 0 "fifo" = .ok none :=
  have h := getCache_policy 1000 "fifo" (by decide)
  ⟨h.1, h.2.1, by simpa using h.2.2.1 (by decide) (by decide), h.2.2.2 "fifo"⟩

end StatsdExporter
